import Mathlib

/-!
Verification of the pending-interaction bridge in
`kitty-enhance/feishu-bridge/daemon.py`.

The Python source is shallowly embedded: each handler becomes a pure Lean
function over explicit record types, terminal/chat side effects become
lists of explicit action values, and the on-disk pending store becomes an
association list of (file path, record).  Machine integers do not occur in
the modelled code paths (timestamps are non-negative reals in the source;
we model them as `Nat` seconds, with the caveat that `Nat` subtraction
truncates where Python would go negative — all modelled comparisons are
used with `now ≥ timestamp`, as in a running daemon).
-/

set_option maxRecDepth 10000
set_option linter.unusedVariables false

/- ── Python string primitives (ASCII-faithful models) ───────────── -/

/-- The whitespace class of Python's `str.strip` and `re` `\s`, restricted to
the ASCII range (the source only ever deals in ASCII whitespace). -/
def isPySpace (c : Char) : Bool :=
  c == ' ' || c == '\t' || c == '\n' || c == '\r' || c == '\x0b' || c == '\x0c'

/-- Python `str.strip()`. -/
def pyStrip (s : String) : String :=
  String.mk (((s.data.dropWhile isPySpace).reverse.dropWhile isPySpace).reverse)

/-- Python `str.lower()` (ASCII letters; CJK characters are fixed points). -/
def pyLower (s : String) : String :=
  String.mk (s.data.map Char.toLower)

/-- Boolean infix test on char lists. -/
def listInfixOf : List Char → List Char → Bool
  | needle, [] => needle.isEmpty
  | needle, c :: rest => needle.isPrefixOf (c :: rest) || listInfixOf needle rest

/-- Python `needle in hay` on strings (substring containment). -/
def strContains (hay needle : String) : Bool :=
  listInfixOf needle.data hay.data

/-- Python `s.startswith(pre)`. -/
def pyStartsWith (s pre : String) : Bool :=
  pre.data.isPrefixOf s.data

/-- Python `s.split("\n")`. -/
def splitLinesAux : List Char → List Char → List String
  | [], cur => [String.mk cur.reverse]
  | '\n' :: rest, cur => String.mk cur.reverse :: splitLinesAux rest []
  | c :: rest, cur => splitLinesAux rest (c :: cur)

def pySplitLines (s : String) : List String :=
  splitLinesAux s.data []

/-- Python `"\n".join(xs)`. -/
def pyJoinNewline : List String → String
  | [] => ""
  | [x] => x
  | x :: rest => x ++ "\n" ++ pyJoinNewline rest

/-- Python `a or b` on strings (returns `a` unless it is falsy/empty). -/
def pyOr (a b : String) : String :=
  if a = "" then b else a

/-- `int` of a non-empty digit run. -/
def natOfDigits (ds : List Char) : Nat :=
  ds.foldl (fun n c => n * 10 + (c.toNat - '0'.toNat)) 0

/- ── Fixed vocabularies (daemon.py lines 65-90) ─────────────────── -/

def TEXT_INPUT_MESSAGE_HINTS : List String :=
  ["waiting for your input", "waiting for input", "需要你的输入", "等待你的输入", "需要你输入"]

def PERMISSION_MESSAGE_HINTS : List String :=
  ["permission", "权限", "allow", "approve"]

def SELECTION_SCREEN_HINTS : List String :=
  ["enter to select", "↑/↓ to navigate", "to navigate"]

def TEXT_INPUT_CANCEL_WORDS : List String :=
  ["cancel", "取消"]

def SELECTION_TEXT_INPUT_KEYWORDS : List String :=
  ["type something", "chat about this"]

/- ── Screen parser (daemon.py `parse_selection_screen`, lines 93-157) ── -/

/-- The regex `^[〉>›»]?\s*(\d+)\.\s+(.*)` applied to an (already stripped)
line: returns `(int(group 1), group 2)` on a match.  `.*` stops at a
newline, `\s` is the whitespace class above, `\d` a decimal digit. -/
def matchOptionLine (s : String) : Option (Nat × String) :=
  let cs := s.data
  let cs := match cs with
    | c :: rest => if (['〉', '>', '›', '»'] : List Char).contains c then rest else c :: rest
    | [] => []
  let cs := cs.dropWhile isPySpace
  let digits := cs.takeWhile Char.isDigit
  if digits.isEmpty then none
  else
    match cs.dropWhile Char.isDigit with
    | '.' :: rest =>
      if (rest.takeWhile isPySpace).isEmpty then none
      else
        some (natOfDigits digits,
          String.mk ((rest.dropWhile isPySpace).takeWhile (fun c => c ≠ '\n')))
    | _ => none

/-- The regex `^(\d+)\s*(.*)` of `_handle_selection_reply`: leading integer
plus the rest of the first line after any whitespace. -/
def matchNumPrefix (s : String) : Option (Nat × String) :=
  let cs := s.data
  let digits := cs.takeWhile Char.isDigit
  if digits.isEmpty then none
  else
    some (natOfDigits digits,
      String.mk (((cs.dropWhile Char.isDigit).dropWhile isPySpace).takeWhile (fun c => c ≠ '\n')))

/-- Loop state of `parse_selection_screen` (`first_option_line = -1` is
modelled as `none`). -/
structure ScanState where
  options : List String
  text_input_indices : List Nat
  descriptions : List (Nat × String)
  first_option_line : Option Nat
  last_option_idx : Nat
deriving Repr, DecidableEq

def initScanState : ScanState :=
  ⟨[], [], [], none, 0⟩

/-- Ordered-dict get (Python `descriptions.get(k, default)`). -/
def dictGetStr (d : List (Nat × String)) (k : Nat) : Option String :=
  (d.find? (fun e => e.1 == k)).map (fun e => e.2)

/-- Ordered-dict assignment (Python `descriptions[k] = v`, insertion order
preserved). -/
def dictSetStr (d : List (Nat × String)) (k : Nat) (v : String) : List (Nat × String) :=
  if d.any (fun e => e.1 == k) then d.map (fun e => if e.1 == k then (k, v) else e)
  else d ++ [(k, v)]

/-- The `while len(options) < idx - 1` gap-filling loop.  Each iteration
appends one placeholder `"选项 N"` and grows the length by one, so the loop
runs exactly `idx - 1 - len(options)` times; we recurse on that count. -/
def padOptionsAux (options : List String) : Nat → List String
  | 0 => options
  | n + 1 => padOptionsAux (options ++ ["选项 " ++ toString (options.length + 1)]) n

def padOptions (options : List String) (idx : Nat) : List String :=
  padOptionsAux options (idx - 1 - options.length)

/-- One iteration of the `for i, line in enumerate(lines)` loop. -/
def parseStep (st : ScanState) (i : Nat) (line : String) : ScanState :=
  let stripped := pyStrip line
  if stripped = "" then st
  else
    match matchOptionLine stripped with
    | some (idx, g2) =>
      let text := pyStrip g2
      let st := if st.first_option_line.isNone then { st with first_option_line := some i } else st
      let options := padOptions st.options idx
      let options :=
        if options.length < idx then
          options ++ [if text = "" then "选项 " ++ toString idx else text]
        else options
      let tii :=
        if SELECTION_TEXT_INPUT_KEYWORDS.any (fun k => strContains (pyLower text) k) then
          (if st.text_input_indices.contains idx then st.text_input_indices
           else st.text_input_indices ++ [idx])
        else st.text_input_indices
      { st with options := options, text_input_indices := tii, last_option_idx := idx }
    | none =>
      if st.first_option_line.isSome ∧ st.last_option_idx > 0 then
        let desc := (dictGetStr st.descriptions st.last_option_idx).getD ""
        let newDesc := if desc = "" then stripped else pyStrip (desc ++ " " ++ stripped)
        { st with descriptions := dictSetStr st.descriptions st.last_option_idx newDesc }
      else st

def parseLoopAux (i : Nat) (lines : List String) (st : ScanState) : ScanState :=
  match lines with
  | [] => st
  | l :: rest => parseLoopAux (i + 1) rest (parseStep st i l)

structure ParsedScreen where
  question : String
  options : List String
  text_input_indices : List Nat
  descriptions : List (Nat × String)
deriving Repr, DecidableEq

/-- `parse_selection_screen(screen_tail)`. -/
def parseSelectionScreen (screen_tail : String) : ParsedScreen :=
  let lines := pySplitLines screen_tail
  let st := parseLoopAux 0 lines initScanState
  let question_lines :=
    match st.first_option_line with
    | some n => if n > 0 then (lines.take n).filter (fun l => pyStrip l != "") else []
    | none => []
  let question := pyStrip (pyJoinNewline question_lines)
  let options := st.descriptions.foldl (fun opts e =>
      if e.1 ≤ opts.length then
        if pyStartsWith (opts.getD (e.1 - 1) "") "选项 " then opts.set (e.1 - 1) e.2
        else opts
      else opts) st.options
  ⟨question, options, st.text_input_indices, st.descriptions⟩

/- ── Pending record (the JSON dict of one pending file) ─────────── -/

structure Pending where
  window_id : String
  timestamp : Nat := 0
  notified : Bool := false
  feishu_msg_id : Option String := none
  reply_mode : Option String := none
  message : Option String := none
  screen_tail : Option String := none
  kitty_socket : Option String := none
  option_count : Option Nat := none
  options : List String := []
  text_input_options : List Nat := []
  question : Option String := none
  descriptions : List (Nat × String) := []
deriving Repr, DecidableEq

/-- `_detect_pending_mode` (daemon.py lines 393-415). -/
def detectPendingMode (p : Pending) : String :=
  let mode := p.reply_mode.getD ""
  if mode = "permission" ∨ mode = "text_input" ∨ mode = "selection" then mode
  else
    let message := pyLower (pyStrip (p.message.getD ""))
    let screen := pyLower (pyStrip (p.screen_tail.getD ""))
    if SELECTION_SCREEN_HINTS.any (fun k => strContains screen k) then "selection"
    else if TEXT_INPUT_MESSAGE_HINTS.any (fun k => strContains message k) then "text_input"
    else if PERMISSION_MESSAGE_HINTS.any (fun k => strContains message k) then "permission"
    else if strContains screen "需要确认" && strContains screen "回复" then "text_input"
    else "permission"

/- ── Terminal / chat side effects as data ───────────────────────── -/

/-- One terminal-control call: `send_keystroke(window_id, text, socket)` or
`send_key(window_id, key_name, socket)`. -/
inductive TermAct where
  | sendKeystroke (window_id text socket : String)
  | sendKey (window_id keyName socket : String)
deriving Repr, DecidableEq

/-- The visible effects of one handler invocation: terminal calls issued (in
order), pending files removed, pending files rewritten (with the record
written), and chat messages sent (their texts, in order). -/
structure Effects where
  keys : List TermAct
  removed : List String
  writes : List (String × Pending)
  msgs : List String
deriving Repr, DecidableEq

def noEffects : Effects := ⟨[], [], [], []⟩

/-- `matched_pending.get("kitty_socket") or self.kitty_socket`. -/
def socketOf (p : Pending) (selfSocket : String) : String :=
  pyOr (p.kitty_socket.getD "") selfSocket

/- ── Pending store lookup (`_find_pending_request`, lines 417-445) ── -/

/-- The scan loop of `_find_pending_request`, threading the fuzzy-match
accumulator (`matched_file`/`matched_pending`) and `latest_ts`. -/
def findPendingAux (parentId : String) (entries : List (String × Pending))
    (acc : Option (String × Pending)) (latest : Nat) : Option (String × Pending) :=
  match entries with
  | [] => acc
  | (fp, p) :: rest =>
    if parentId ≠ "" ∧ p.feishu_msg_id = some parentId then some (fp, p)
    else if parentId = "" ∧ p.notified = true ∧ p.timestamp > latest then
      findPendingAux parentId rest (some (fp, p)) p.timestamp
    else findPendingAux parentId rest acc latest

/-- `_find_pending_request(parent_id)` over the loaded pending records
(`store` holds the readable, non-skipped records in scan order). -/
def findPendingRequest (parentId : String) (store : List (String × Pending)) :
    Option (String × Pending) :=
  findPendingAux parentId store none 0

/- ── Selection reply handler (`_handle_selection_reply`, lines 723-827) ── -/

def handleSelectionReply (text0 parentId matchedFile : String) (p : Pending)
    (selfSocket : String) : Effects :=
  let text := pyStrip text0
  if pyLower text = "esc" ∨ pyLower text = "取消" ∨ pyLower text = "cancel" then
    ⟨[.sendKey p.window_id "escape" (socketOf p selfSocket)], [matchedFile], [], ["❌ 已取消选择"]⟩
  else
    match matchNumPrefix text with
    | none =>
      let option_count := p.option_count.getD 0
      let hint := if option_count ≠ 0 then "1-" ++ toString option_count else "1、2、3..."
      { noEffects with msgs := ["⚠️ 这是选择题，请回复数字（" ++ hint ++ "）或 esc 取消"] }
    | some (choice, g2) =>
      let extra := pyStrip g2
      if choice < 1 then { noEffects with msgs := ["⚠️ 选项编号从 1 开始"] }
      else
        let option_count := p.option_count.getD 0
        if option_count ≠ 0 ∧ choice > option_count then
          { noEffects with
            msgs := ["⚠️ 只有 " ++ toString option_count ++ " 个选项，请回复 1-" ++ toString option_count] }
        else
          let socket := socketOf p selfSocket
          let wid := p.window_id
          let downs := List.replicate (choice - 1) (TermAct.sendKey wid "down" socket)
          if p.text_input_options.contains choice then
            if extra ≠ "" then
              ⟨downs ++ [.sendKeystroke wid extra socket, .sendKey wid "enter" socket],
               [matchedFile], [],
               ["✅ 已选择选项 " ++ toString choice ++ " 并输入: " ++ extra]⟩
            else
              let p2 := { p with reply_mode := some "text_input", notified := true }
              let optName :=
                if choice ≤ p.options.length then p.options.getD (choice - 1) ""
                else "选项 " ++ toString choice
              ⟨downs, [], [(matchedFile, p2)],
               ["📝 已选择「" ++ optName ++ "」，请直接回复文字内容"]⟩
          else
            let action :=
              if extra ≠ "" then "✅ 已选择选项 " ++ toString choice ++ " 并输入: " ++ extra
              else if choice ≤ p.options.length then "✅ 已选择: " ++ p.options.getD (choice - 1) ""
              else "✅ 已选择选项 " ++ toString choice
            ⟨downs ++ [.sendKey wid "enter" socket], [matchedFile], [], [action]⟩

/- ── Permission reply handler (`_handle_permission_reply`, lines 829-863) ── -/

def handlePermissionReply (answer parentId : String) (store : List (String × Pending))
    (selfSocket : String) : Effects :=
  match findPendingRequest parentId store with
  | none => noEffects
  | some (matchedFile, p) =>
    let mode := detectPendingMode p
    let socket := socketOf p selfSocket
    let sent :=
      if mode = "text_input" then
        ([TermAct.sendKeystroke p.window_id answer socket,
          TermAct.sendKeystroke p.window_id "\r" socket], "✅ 已发送文本")
      else
        let isAllow := answer = "y" ∨ answer = "yes" ∨ answer = "是"
        ([TermAct.sendKeystroke p.window_id (if isAllow then "\r" else "\x1b") socket],
         if isAllow then "✅ 已允许" else "❌ 已拒绝")
    let replyTo := pyOr parentId (p.feishu_msg_id.getD "")
    ⟨sent.1, [matchedFile], [], if replyTo ≠ "" then [sent.2] else []⟩

/- ── Pending commands (`_pending_commands`, `_execute_pending_command`) ── -/

structure PendingCmd where
  window_id : String
  text : String
  timestamp : Nat
deriving Repr, DecidableEq

/-- Registry entry returned by `get_terminal_info` (external collaborator). -/
structure TermInfo where
  kitty_socket : Option String := none
  status : String := "idle"
deriving Repr, DecidableEq

def lookupAssoc {α : Type} (m : List (String × α)) (k : String) : Option α :=
  (m.find? (fun e => e.1 == k)).map (fun e => e.2)

/-- Python `dict.pop(k, None)`'s removal part. -/
def removeAssoc {α : Type} (m : List (String × α)) (k : String) : List (String × α) :=
  m.filter (fun e => e.1 != k)

/-- `_send_command_to_terminal` (lines 1166-1187); `detectedSocket` stands
for the result of `self._detect_socket()`. -/
def sendCommandToTerminal (window_id text : String) (info : TermInfo)
    (detectedSocket : String) : Effects :=
  let socket := pyOr (info.kitty_socket.getD "") detectedSocket
  if socket = "" then { noEffects with msgs := ["❌ 无法连接 kitty 终端"] }
  else
    ⟨[.sendKeystroke window_id text socket, .sendKeystroke window_id "\r" socket],
     [], [], ["✅ 已发送到终端 #" ++ window_id]⟩

/-- `_execute_pending_command(answer, parent_id)` (lines 1145-1164); also
returns the updated `_pending_commands` map. -/
def executePendingCommand (answer parentId : String) (cmds : List (String × PendingCmd))
    (registry : List (String × TermInfo)) (detectedSocket : String) :
    Effects × List (String × PendingCmd) :=
  match lookupAssoc cmds parentId with
  | none => (noEffects, cmds)
  | some pc =>
    let cmds2 := removeAssoc cmds parentId
    let isConfirm := answer = "y" ∨ answer = "yes" ∨ answer = "是"
    if ¬ isConfirm then ({ noEffects with msgs := ["❌ 已取消发送"] }, cmds2)
    else
      match lookupAssoc registry pc.window_id with
      | none => ({ noEffects with msgs := ["❌ 终端 #" ++ pc.window_id ++ " 已关闭"] }, cmds2)
      | some info =>
        let eff := sendCommandToTerminal pc.window_id pc.text info detectedSocket
        ({ eff with msgs := eff.msgs ++ ["✅ 已强制发送"] }, cmds2)

/-- The stale-command sweep in `_monitor_loop` (lines 370-374): delete every
entry with `now - timestamp > 300`. -/
def cleanupPendingCommands (now : Nat) (cmds : List (String × PendingCmd)) :
    List (String × PendingCmd) :=
  cmds.filter (fun e => decide (¬ now - e.2.timestamp > 300))

/- ── Reply-chain dispatcher (`_handle_parent_reply`, lines 464-524) ── -/

structure ParentReplyResult where
  handled : Bool
  eff : Effects
  cmds : List (String × PendingCmd)
deriving Repr, DecidableEq

def handleParentReply (text parentId : String) (cmds : List (String × PendingCmd))
    (store : List (String × Pending)) (selfSocket : String)
    (registry : List (String × TermInfo)) (detectedSocket : String) : ParentReplyResult :=
  if parentId = "" then ⟨false, noEffects, cmds⟩
  else if (lookupAssoc cmds parentId).isSome then
    let lower := pyLower text
    if lower ∈ (["y", "n", "yes", "no", "是", "否"] : List String) then
      let r := executePendingCommand lower parentId cmds registry detectedSocket
      ⟨true, r.1, r.2⟩
    else ⟨true, { noEffects with msgs := ["⚠️ 该确认仅支持回复 y 或 n"] }, cmds⟩
  else
    match findPendingRequest parentId store with
    | none => ⟨false, noEffects, cmds⟩
    | some (matchedFile, p) =>
      let mode := detectPendingMode p
      if mode = "selection" then
        ⟨true, handleSelectionReply text parentId matchedFile p selfSocket, cmds⟩
      else if mode = "text_input" then
        if pyLower text ∈ TEXT_INPUT_CANCEL_WORDS then
          ⟨true, { noEffects with removed := [matchedFile], msgs := ["❌ 已取消本次输入"] }, cmds⟩
        else
          let socket := socketOf p selfSocket
          ⟨true,
           ⟨[.sendKeystroke p.window_id text socket, .sendKeystroke p.window_id "\r" socket],
            [matchedFile], [], ["✅ 已发送文本到终端"]⟩, cmds⟩
      else
        let lower := pyLower text
        if lower ∈ (["y", "n", "yes", "no", "是", "否"] : List String) then
          ⟨true, handlePermissionReply lower parentId store selfSocket, cmds⟩
        else ⟨true, { noEffects with msgs := ["⚠️ 该请求是权限确认，请回复 y 或 n"] }, cmds⟩

/- ── Dual-channel intake (dedup ledger and the two delivery paths) ── -/

/-- `_is_new_message` (lines 286-292): the ledger maps message id to
first-seen time; returns whether the id is first-seen and the new ledger. -/
def isNewMessage (seen : List (String × Nat)) (messageId : String) (now : Nat) :
    Bool × List (String × Nat) :=
  if seen.any (fun e => e.1 == messageId) then (false, seen)
  else (true, seen ++ [(messageId, now)])

/-- An inbound chat message as both channels see it. -/
structure InboundMsg where
  message_id : String
  sender_id : String
  text : String
  msg_type : String
  parent_id : String
  create_time : Nat
deriving Repr, DecidableEq

/-- The push (WebSocket) listener `_handle_reply` (lines 606-648) up to the
point where it spawns `_process_reply`: returns whether `_process_reply`
was invoked, plus the updated ledger.  Guard order: message type, sender
filter, empty text, then the dedup check. -/
def wsDeliver (allowedUser : String) (seen : List (String × Nat)) (m : InboundMsg)
    (now : Nat) : Bool × List (String × Nat) :=
  if m.msg_type ≠ "text" then (false, seen)
  else if allowedUser ≠ "" ∧ m.sender_id ≠ allowedUser then (false, seen)
  else if pyStrip m.text = "" then (false, seen)
  else isNewMessage seen m.message_id now

/-- One message of the API poller `_poll_loop` (lines 316-335) up to its
call of `_process_reply`: dedup check first, then the sender filter. -/
def pollDeliver (allowedUser : String) (seen : List (String × Nat)) (m : InboundMsg)
    (now : Nat) : Bool × List (String × Nat) :=
  let r := isNewMessage seen m.message_id now
  if r.1 = false then (false, r.2)
  else if allowedUser ≠ "" ∧ m.sender_id ≠ allowedUser then (false, r.2)
  else (true, r.2)

/- ── Notify pass (`_process_pending`, lines 526-566) ────────────── -/

/-- Selection enrichment performed just before notifying (lines 547-554). -/
def enrichSelection (p : Pending) : Pending :=
  let parsed := parseSelectionScreen (p.screen_tail.getD "")
  { p with options := parsed.options,
           option_count := some parsed.options.length,
           text_input_options := parsed.text_input_indices,
           question := some parsed.question,
           descriptions := parsed.descriptions }

/-- `_process_pending` for one record: returns the on-disk state afterwards
(`none` means the file was deleted on expiry).  `sendMsgId` is the message
id returned by `send_permission_message` (`""` models a send failure, in
which case the file is left unwritten and `notified` stays false). -/
def processPending (p : Pending) (now waitSeconds expireSeconds : Nat)
    (sendMsgId : String) : Option Pending :=
  let age := now - p.timestamp
  if age ≥ expireSeconds then none
  else if age ≥ waitSeconds ∧ p.notified = false then
    let p1 := { p with reply_mode := some (detectPendingMode p) }
    let p2 := if detectPendingMode p = "selection" then enrichSelection p1 else p1
    if sendMsgId ≠ "" then
      some { p2 with feishu_msg_id := some sendMsgId, notified := true }
    else some p
  else some p

/-- Modelled from the spec: "fall back to the most-recently-notified
interaction across all windows", with recency measured by notification
time.  The notification instant is not stored in a pending record, so the
spec-side selector takes it as an explicit map from file path to the time
the record was notified. -/
def specMostRecentlyNotified (entries : List (String × Pending))
    (notifyTime : String → Nat) : Option (String × Pending) :=
  entries.foldl (fun acc e =>
    if e.2.notified = true then
      match acc with
      | none => some e
      | some a => if notifyTime e.1 > notifyTime a.1 then some e else some a
    else acc) none


/- ════════════════════════ Theorems ════════════════════════ -/

/-- Claim C6: parsing the screen tail `"1. Foo\n2. Bar (type something)\n3. Baz"`
yields options `["Foo", "Bar (type something)", "Baz"]`, text-input index
set `{2}`, and an empty question (no lines precede the first option line). -/
theorem parse_screen_three_options :
    (parseSelectionScreen "1. Foo\n2. Bar (type something)\n3. Baz").options =
      ["Foo", "Bar (type something)", "Baz"] ∧
    (parseSelectionScreen "1. Foo\n2. Bar (type something)\n3. Baz").text_input_indices = [2] ∧
    (parseSelectionScreen "1. Foo\n2. Bar (type something)\n3. Baz").question = "" := by
  refine ⟨by decide, by decide, by decide⟩

/-- Claim C9, counterexample: on the option-free input `"hello"` the parser
returns an empty option list and empty index set, but the question string
is empty — the input's non-blank content is *not* preserved. -/
theorem parse_screen_no_options_loses_question :
    (parseSelectionScreen "hello").options = [] ∧
    (parseSelectionScreen "hello").text_input_indices = [] ∧
    (parseSelectionScreen "hello").question = "" ∧
    (parseSelectionScreen "hello").question ≠ "hello" := by
  refine ⟨by decide, by decide, by decide, by decide⟩

lemma parseStep_initial (i : Nat) (l : String)
    (h : matchOptionLine (pyStrip l) = none) :
    parseStep initScanState i l = initScanState := by
  by_cases hs : pyStrip l = "" <;>
    simp [parseStep, hs, h, initScanState]

lemma parseLoopAux_no_match :
    ∀ (lines : List String) (i : Nat),
      (∀ l ∈ lines, matchOptionLine (pyStrip l) = none) →
      parseLoopAux i lines initScanState = initScanState := by
  intro lines
  induction lines with
  | nil => intro i _; rfl
  | cons l rest ih =>
    intro i h
    simp only [parseLoopAux]
    rw [parseStep_initial i l (h l (List.mem_cons_self _ _))]
    exact ih (i + 1) (fun x hx => h x (List.mem_cons_of_mem _ hx))

/-- Claim C9 (amended): for every input in which no line matches the option-line
pattern, the parser returns — without raising — an empty option list, an
empty text-input index set, and an *empty* question string (the non-blank
content of the input is dropped, because the question is only assembled
from lines strictly above a found first option line). -/
theorem parse_screen_no_options_empty_result :
    ∀ s : String,
      (∀ l ∈ pySplitLines s, matchOptionLine (pyStrip l) = none) →
      parseSelectionScreen s = ⟨"", [], [], []⟩ := by
  intro s h
  simp only [parseSelectionScreen]
  rw [parseLoopAux_no_match (pySplitLines s) 0 h]
  rfl

/-- Witness for C9 (amended) at a concrete option-free input. -/
theorem parse_screen_no_options_empty_result_witness :
    parseSelectionScreen "hello world\n\nsecond line" = ⟨"", [], [], []⟩ :=
  parse_screen_no_options_empty_result "hello world\n\nsecond line" (by decide)

/-- Claim C1: a message of type text from the allowed sender with non-empty text,
whose id the dedup ledger has not seen: the ledger's first check returns
`True` and records the id; delivering the message once through the push
(WebSocket) listener and once through the API poller, in either order,
invokes `_process_reply` exactly once — the second delivery is dropped by
`_is_new_message` before processing. -/
theorem dual_channel_dedup_single_invocation :
    ∀ (allowedUser : String) (seen : List (String × Nat)) (m : InboundMsg) (t1 t2 : Nat),
      m.msg_type = "text" →
      (allowedUser = "" ∨ m.sender_id = allowedUser) →
      pyStrip m.text ≠ "" →
      seen.any (fun e => e.1 == m.message_id) = false →
      ((isNewMessage seen m.message_id t1).1 = true ∧
       (isNewMessage seen m.message_id t1).2.any (fun e => e.1 == m.message_id) = true) ∧
      ((wsDeliver allowedUser seen m t1).1 = true ∧
       (pollDeliver allowedUser (wsDeliver allowedUser seen m t1).2 m t2).1 = false) ∧
      ((pollDeliver allowedUser seen m t1).1 = true ∧
       (wsDeliver allowedUser (pollDeliver allowedUser seen m t1).2 m t2).1 = false) := by
  intro allowedUser seen m t1 t2 htype hallow htext hseen
  have hg : ¬(allowedUser ≠ "" ∧ m.sender_id ≠ allowedUser) := by
    rcases hallow with h | h <;> simp [h]
  have htype' : ¬ m.msg_type ≠ "text" := by simp [htype]
  simp [wsDeliver, pollDeliver, isNewMessage, htype', hg, htext, hseen, List.any_append]

/-- Witness for C1 at a concrete message and empty ledger. -/
def sampleMsg : InboundMsg :=
  ⟨"om_msg_1", "ou_user_1", "hi", "text", "", 100⟩

theorem dual_channel_dedup_single_invocation_witness :
    (wsDeliver "" [] sampleMsg 1).1 = true ∧
    (pollDeliver "" (wsDeliver "" [] sampleMsg 1).2 sampleMsg 2).1 = false :=
  (dual_channel_dedup_single_invocation "" [] sampleMsg 1 2 rfl (Or.inl rfl)
    (by decide) rfl).2.1

/-- Claim C5: the mode classifier is deterministic with the documented priority:
(1) an already-recognized stored mode is kept; (2) else a selection-footer
phrase in the lowercased screen tail forces `selection`, before any hint
check; (3) else a waiting-for-input phrase in the hook message gives
`text_input`; (4) else a permission phrase gives `permission`; (5) else the
conjunction of the confirmation-needed and reply-instruction phrases in the
screen tail gives `text_input`; (6) otherwise `permission`. -/
theorem detect_mode_priority :
    ∀ p : Pending,
      (∀ m, p.reply_mode = some m →
        (m = "permission" ∨ m = "text_input" ∨ m = "selection") →
        detectPendingMode p = m) ∧
      (¬ (p.reply_mode.getD "" = "permission" ∨ p.reply_mode.getD "" = "text_input" ∨
          p.reply_mode.getD "" = "selection") →
        (SELECTION_SCREEN_HINTS.any
            (fun k => strContains (pyLower (pyStrip (p.screen_tail.getD ""))) k) = true →
          detectPendingMode p = "selection") ∧
        (SELECTION_SCREEN_HINTS.any
            (fun k => strContains (pyLower (pyStrip (p.screen_tail.getD ""))) k) = false →
          TEXT_INPUT_MESSAGE_HINTS.any
            (fun k => strContains (pyLower (pyStrip (p.message.getD ""))) k) = true →
          detectPendingMode p = "text_input") ∧
        (SELECTION_SCREEN_HINTS.any
            (fun k => strContains (pyLower (pyStrip (p.screen_tail.getD ""))) k) = false →
          TEXT_INPUT_MESSAGE_HINTS.any
            (fun k => strContains (pyLower (pyStrip (p.message.getD ""))) k) = false →
          PERMISSION_MESSAGE_HINTS.any
            (fun k => strContains (pyLower (pyStrip (p.message.getD ""))) k) = true →
          detectPendingMode p = "permission") ∧
        (SELECTION_SCREEN_HINTS.any
            (fun k => strContains (pyLower (pyStrip (p.screen_tail.getD ""))) k) = false →
          TEXT_INPUT_MESSAGE_HINTS.any
            (fun k => strContains (pyLower (pyStrip (p.message.getD ""))) k) = false →
          PERMISSION_MESSAGE_HINTS.any
            (fun k => strContains (pyLower (pyStrip (p.message.getD ""))) k) = false →
          strContains (pyLower (pyStrip (p.screen_tail.getD ""))) "需要确认" = true →
          strContains (pyLower (pyStrip (p.screen_tail.getD ""))) "回复" = true →
          detectPendingMode p = "text_input") ∧
        (SELECTION_SCREEN_HINTS.any
            (fun k => strContains (pyLower (pyStrip (p.screen_tail.getD ""))) k) = false →
          TEXT_INPUT_MESSAGE_HINTS.any
            (fun k => strContains (pyLower (pyStrip (p.message.getD ""))) k) = false →
          PERMISSION_MESSAGE_HINTS.any
            (fun k => strContains (pyLower (pyStrip (p.message.getD ""))) k) = false →
          (strContains (pyLower (pyStrip (p.screen_tail.getD ""))) "需要确认" = false ∨
           strContains (pyLower (pyStrip (p.screen_tail.getD ""))) "回复" = false) →
          detectPendingMode p = "permission")) := by
  intro p
  constructor
  · intro m hm hrec
    simp only [detectPendingMode, hm, Option.getD_some]
    rw [if_pos hrec]
  · intro hnot
    refine ⟨?_, ?_, ?_, ?_, ?_⟩
    · intro hsel
      simp [detectPendingMode, hnot, hsel]
    · intro hsel hti
      simp [detectPendingMode, hnot, hsel, hti]
    · intro hsel hti hperm
      simp [detectPendingMode, hnot, hsel, hti, hperm]
    · intro hsel hti hperm hc hr
      simp [detectPendingMode, hnot, hsel, hti, hperm, hc, hr]
    · intro hsel hti hperm hcr
      rcases hcr with hc | hr
      · simp [detectPendingMode, hnot, hsel, hti, hperm, hc]
      · simp [detectPendingMode, hnot, hsel, hti, hperm, hr]

def pKeep : Pending := { window_id := "1", reply_mode := some "text_input" }

def pSelScreen : Pending :=
  { window_id := "2", message := some "waiting for your input",
    screen_tail := some "1. A\n2. B\nEnter to select · ↑/↓ to navigate" }

def pWaiting : Pending := { window_id := "3", message := some "Waiting for your input" }

def pPermHint : Pending := { window_id := "4", message := some "Permission required" }

def pConfirm : Pending := { window_id := "5", screen_tail := some "需要确认 请回复" }

def pDefault : Pending := { window_id := "6" }

/-- Witness for C5: each priority clause at a concrete pending record — a
stored mode is kept; a selection footer wins even when the hook message
contains a text-input hint; and the hint, fallback and default clauses. -/
theorem detect_mode_priority_witness :
    detectPendingMode pKeep = "text_input" ∧
    detectPendingMode pSelScreen = "selection" ∧
    detectPendingMode pWaiting = "text_input" ∧
    detectPendingMode pPermHint = "permission" ∧
    detectPendingMode pConfirm = "text_input" ∧
    detectPendingMode pDefault = "permission" :=
  ⟨(detect_mode_priority pKeep).1 "text_input" rfl (by decide),
   ((detect_mode_priority pSelScreen).2 (by decide)).1 (by decide),
   ((detect_mode_priority pWaiting).2 (by decide)).2.1 (by decide) (by decide),
   ((detect_mode_priority pPermHint).2 (by decide)).2.2.1 (by decide) (by decide) (by decide),
   ((detect_mode_priority pConfirm).2 (by decide)).2.2.2.1 (by decide) (by decide) (by decide)
     (by decide) (by decide),
   ((detect_mode_priority pDefault).2 (by decide)).2.2.2.2 (by decide) (by decide) (by decide)
     (Or.inl (by decide))⟩

/-- Claim C7: replying to a pending selection with stored option count 3 and a
leading integer out of range (k = 0, since the pattern only matches
non-negative integers, or k > 3) sends no terminal keystroke, answers with
a usage hint, and leaves the pending record untouched. -/
theorem selection_out_of_range_rejected :
    ∀ (text parentId matchedFile : String) (p : Pending) (selfSocket : String)
      (k : Nat) (g2 : String),
      p.option_count = some 3 →
      ¬ (pyLower (pyStrip text) = "esc" ∨ pyLower (pyStrip text) = "取消" ∨
         pyLower (pyStrip text) = "cancel") →
      matchNumPrefix (pyStrip text) = some (k, g2) →
      (k = 0 ∨ 3 < k) →
      (handleSelectionReply text parentId matchedFile p selfSocket).keys = [] ∧
      (handleSelectionReply text parentId matchedFile p selfSocket).removed = [] ∧
      (handleSelectionReply text parentId matchedFile p selfSocket).writes = [] ∧
      ((handleSelectionReply text parentId matchedFile p selfSocket).msgs =
          ["⚠️ 选项编号从 1 开始"] ∨
       (handleSelectionReply text parentId matchedFile p selfSocket).msgs =
          ["⚠️ 只有 3 个选项，请回复 1-3"]) := by
  intro text parentId matchedFile p selfSocket k g2 hcount hnc hm hk
  rcases hk with hk | hk
  · subst hk
    simp [handleSelectionReply, hnc, hm, noEffects]
  · have hklt : ¬ k < 1 := by omega
    have hgt : (3 : Nat) ≠ 0 ∧ 3 < k := by omega
    simp only [handleSelectionReply, hm, if_neg hnc, hcount, Option.getD_some,
      if_neg hklt, if_pos hgt, noEffects]
    refine ⟨trivial, trivial, trivial, Or.inr (by decide)⟩

/-- Witness for C7 at concrete out-of-range replies `"9"` and `"0"`. -/
def pSel3 : Pending :=
  { window_id := "7", option_count := some 3, options := ["A", "B", "C"],
    reply_mode := some "selection", notified := true }

theorem selection_out_of_range_rejected_witness :
    (handleSelectionReply "9" "pm9" "f9" pSel3 "sock").keys = [] ∧
    (handleSelectionReply "0" "pm9" "f9" pSel3 "sock").keys = [] := by
  refine ⟨(selection_out_of_range_rejected "9" "pm9" "f9" pSel3 "sock" 9 ""
      rfl (by decide) (by decide) (Or.inr (by decide))).1,
    (selection_out_of_range_rejected "0" "pm9" "f9" pSel3 "sock" 0 ""
      rfl (by decide) (by decide) (Or.inl rfl)).1⟩

/-- Claim C10: when the stored option count is 0 or absent, the upper-bound check
is vacuous — every reply with leading integer k ≥ 1 is accepted: k-1 down
keystrokes are sent, and the record is deleted (resolved) or rewritten in
place with mode `text_input` (escalated); the out-of-range usage hint is
unreachable in this configuration. -/
theorem selection_zero_count_vacuous_bound :
    ∀ (text parentId matchedFile : String) (p : Pending) (selfSocket : String)
      (k : Nat) (g2 : String),
      p.option_count.getD 0 = 0 →
      ¬ (pyLower (pyStrip text) = "esc" ∨ pyLower (pyStrip text) = "取消" ∨
         pyLower (pyStrip text) = "cancel") →
      matchNumPrefix (pyStrip text) = some (k, g2) →
      1 ≤ k →
      (p.text_input_options.contains k = true → pyStrip g2 = "" →
        (handleSelectionReply text parentId matchedFile p selfSocket).keys =
          List.replicate (k - 1) (TermAct.sendKey p.window_id "down" (socketOf p selfSocket)) ∧
        (handleSelectionReply text parentId matchedFile p selfSocket).removed = [] ∧
        (handleSelectionReply text parentId matchedFile p selfSocket).writes =
          [(matchedFile, { p with reply_mode := some "text_input", notified := true })]) ∧
      (p.text_input_options.contains k = true → pyStrip g2 ≠ "" →
        (handleSelectionReply text parentId matchedFile p selfSocket).keys =
          List.replicate (k - 1) (TermAct.sendKey p.window_id "down" (socketOf p selfSocket)) ++
            [TermAct.sendKeystroke p.window_id (pyStrip g2) (socketOf p selfSocket),
             TermAct.sendKey p.window_id "enter" (socketOf p selfSocket)] ∧
        (handleSelectionReply text parentId matchedFile p selfSocket).removed = [matchedFile] ∧
        (handleSelectionReply text parentId matchedFile p selfSocket).writes = []) ∧
      (p.text_input_options.contains k = false →
        (handleSelectionReply text parentId matchedFile p selfSocket).keys =
          List.replicate (k - 1) (TermAct.sendKey p.window_id "down" (socketOf p selfSocket)) ++
            [TermAct.sendKey p.window_id "enter" (socketOf p selfSocket)] ∧
        (handleSelectionReply text parentId matchedFile p selfSocket).removed = [matchedFile] ∧
        (handleSelectionReply text parentId matchedFile p selfSocket).writes = []) := by
  intro text parentId matchedFile p selfSocket k g2 hcount hnc hm hk
  have hklt : ¬ k < 1 := by omega
  have hbound : ¬ (p.option_count.getD 0 ≠ 0 ∧ p.option_count.getD 0 < k) := by
    simp [hcount]
  refine ⟨?_, ?_, ?_⟩
  · intro htio hex
    have hmem : k ∈ p.text_input_options := by simpa using htio
    simp [handleSelectionReply, hm, hnc, hklt, hbound, hmem, hex]
  · intro htio hex
    have hmem : k ∈ p.text_input_options := by simpa using htio
    simp [handleSelectionReply, hm, hnc, hklt, hbound, hmem, hex]
  · intro htio
    have hmem : k ∉ p.text_input_options := by simpa using htio
    simp [handleSelectionReply, hm, hnc, hklt, hbound, hmem]

def pSel0 : Pending :=
  { window_id := "8", reply_mode := some "selection", notified := true,
    text_input_options := [2] }

/-- Witness for C10: with no stored option count, the reply `"5"` is
accepted — four down keystrokes plus enter, and the record is removed. -/
theorem selection_zero_count_vacuous_bound_witness :
    (handleSelectionReply "5" "pm0" "f0" pSel0 "sock").keys =
      List.replicate 4 (TermAct.sendKey "8" "down" "sock") ++
        [TermAct.sendKey "8" "enter" "sock"] ∧
    (handleSelectionReply "5" "pm0" "f0" pSel0 "sock").removed = ["f0"] := by
  have h := (selection_zero_count_vacuous_bound "5" "pm0" "f0" pSel0 "sock" 5 ""
    rfl (by decide) (by decide) (by decide)).2.2 (by decide)
  exact ⟨h.1, h.2.1⟩

/-- Claim C3: replying with an in-range option k that requires follow-up text and
no trailing text sends k-1 down keystrokes and no enter, rewrites the same
record in place with mode `text_input` and `notified` true (not deleted),
and tells the operator which option was chosen; a subsequent free-text
reply routed to that record then sends the text plus a submit keystroke
and deletes the record. -/
theorem selection_escalation_then_text :
    ∀ (text1 parentId matchedFile : String) (p : Pending) (selfSocket : String)
      (k : Nat) (g2 : String),
      ¬ (pyLower (pyStrip text1) = "esc" ∨ pyLower (pyStrip text1) = "取消" ∨
         pyLower (pyStrip text1) = "cancel") →
      matchNumPrefix (pyStrip text1) = some (k, g2) →
      pyStrip g2 = "" →
      1 ≤ k →
      ¬ (p.option_count.getD 0 ≠ 0 ∧ p.option_count.getD 0 < k) →
      p.text_input_options.contains k = true →
      (handleSelectionReply text1 parentId matchedFile p selfSocket =
        ⟨List.replicate (k - 1) (TermAct.sendKey p.window_id "down" (socketOf p selfSocket)),
         [], [(matchedFile, { p with reply_mode := some "text_input", notified := true })],
         ["📝 已选择「" ++ (if k ≤ p.options.length then p.options.getD (k - 1) ""
            else "选项 " ++ toString k) ++ "」，请直接回复文字内容"]⟩) ∧
      (∀ (text2 parentId2 : String) (cmds : List (String × PendingCmd))
         (store2 : List (String × Pending)) (registry : List (String × TermInfo))
         (detectedSocket : String),
         parentId2 ≠ "" →
         lookupAssoc cmds parentId2 = none →
         findPendingRequest parentId2 store2 =
           some (matchedFile, { p with reply_mode := some "text_input", notified := true }) →
         pyLower text2 ∉ TEXT_INPUT_CANCEL_WORDS →
         handleParentReply text2 parentId2 cmds store2 selfSocket registry detectedSocket =
           ⟨true,
            ⟨[TermAct.sendKeystroke p.window_id text2 (socketOf p selfSocket),
              TermAct.sendKeystroke p.window_id "\r" (socketOf p selfSocket)],
             [matchedFile], [], ["✅ 已发送文本到终端"]⟩, cmds⟩) := by
  intro text1 parentId matchedFile p selfSocket k g2 hnc hm hex hk hbound htio
  constructor
  · have hmem : k ∈ p.text_input_options := by simpa using htio
    have hklt : ¬ k < 1 := by omega
    simp [handleSelectionReply, hm, hnc, hklt, hbound, hmem, hex]
  · intro text2 parentId2 cmds store2 registry detectedSocket hpid2 hcm hfind hcanc
    have hmode : detectPendingMode
        { p with reply_mode := some "text_input", notified := true } = "text_input" := by
      simp [detectPendingMode]
    simp [handleParentReply, hpid2, hcm, hfind, hmode, hcanc, socketOf]

def pSelEsc : Pending :=
  { window_id := "9", reply_mode := some "selection", notified := true,
    option_count := some 3, options := ["A", "B (type something)", "C"],
    text_input_options := [2], feishu_msg_id := some "pmE" }

/-- Witness for C3: replying `"2"` to a concrete pending selection whose
option 2 needs text escalates it in place (one down keystroke, no enter),
and the follow-up reply `"hello"` sends `hello` + submit and deletes it. -/
theorem selection_escalation_then_text_witness :
    (handleSelectionReply "2" "pmE" "fE" pSelEsc "sock").keys =
      [TermAct.sendKey "9" "down" "sock"] ∧
    (handleSelectionReply "2" "pmE" "fE" pSelEsc "sock").writes =
      [("fE", { pSelEsc with reply_mode := some "text_input", notified := true })] ∧
    handleParentReply "hello" "pmE" []
        [("fE", { pSelEsc with reply_mode := some "text_input", notified := true })]
        "sock" [] "" =
      ⟨true,
       ⟨[TermAct.sendKeystroke "9" "hello" "sock", TermAct.sendKeystroke "9" "\r" "sock"],
        ["fE"], [], ["✅ 已发送文本到终端"]⟩, []⟩ := by
  have h := selection_escalation_then_text "2" "pmE" "fE" pSelEsc "sock" 2 ""
    (by decide) (by decide) rfl (by decide) (by decide) (by decide)
  refine ⟨?_, ?_, ?_⟩
  · rw [h.1]; decide
  · rw [h.1]
  · exact h.2 "hello" "pmE" []
      [("fE", { pSelEsc with reply_mode := some "text_input", notified := true })] [] ""
      (by decide) rfl (by decide) (by decide)

/-- Claim C2: a reply routed to a pending interaction classified as permission —
an affirmative token (y/yes/是, lowercased) sends the accept keystroke
`"\r"` to the recorded window and deletes the record; a negative token
(n/no/否) sends the cancel keystroke `"\x1b"` and deletes the record; any
other text yields a usage hint and leaves the record untouched. -/
theorem permission_reply_dispatch :
    ∀ (text parentId : String) (cmds : List (String × PendingCmd))
      (store : List (String × Pending)) (selfSocket : String)
      (registry : List (String × TermInfo)) (detectedSocket : String)
      (matchedFile : String) (p : Pending),
      parentId ≠ "" →
      lookupAssoc cmds parentId = none →
      findPendingRequest parentId store = some (matchedFile, p) →
      detectPendingMode p = "permission" →
      ((pyLower text = "y" ∨ pyLower text = "yes" ∨ pyLower text = "是") →
        (handleParentReply text parentId cmds store selfSocket registry detectedSocket).eff =
          ⟨[TermAct.sendKeystroke p.window_id "\r" (socketOf p selfSocket)],
           [matchedFile], [], ["✅ 已允许"]⟩) ∧
      ((pyLower text = "n" ∨ pyLower text = "no" ∨ pyLower text = "否") →
        (handleParentReply text parentId cmds store selfSocket registry detectedSocket).eff =
          ⟨[TermAct.sendKeystroke p.window_id "\x1b" (socketOf p selfSocket)],
           [matchedFile], [], ["❌ 已拒绝"]⟩) ∧
      (pyLower text ∉ (["y", "n", "yes", "no", "是", "否"] : List String) →
        (handleParentReply text parentId cmds store selfSocket registry detectedSocket).eff =
          { noEffects with msgs := ["⚠️ 该请求是权限确认，请回复 y 或 n"] }) := by
  intro text parentId cmds store selfSocket registry detectedSocket matchedFile p
    hpid hcm hfind hmode
  refine ⟨?_, ?_, ?_⟩
  · intro htok
    have hmem : pyLower text ∈ (["y", "n", "yes", "no", "是", "否"] : List String) := by
      rcases htok with h | h | h <;> simp [h]
    have hallow : pyLower text = "y" ∨ pyLower text = "yes" ∨ pyLower text = "是" := htok
    simp [handleParentReply, handlePermissionReply, hpid, hcm, hfind, hmode, hmem, hallow, pyOr]
  · intro htok
    have hmem : pyLower text ∈ (["y", "n", "yes", "no", "是", "否"] : List String) := by
      rcases htok with h | h | h <;> simp [h]
    have hneg : ¬ (pyLower text = "y" ∨ pyLower text = "yes" ∨ pyLower text = "是") := by
      rcases htok with h | h | h <;> simp [h]
    simp [handleParentReply, handlePermissionReply, hpid, hcm, hfind, hmode, hmem, hneg, pyOr]
  · intro hmem
    simp [handleParentReply, hpid, hcm, hfind, hmode, hmem]

def pPerm : Pending :=
  { window_id := "10", reply_mode := some "permission", notified := true,
    feishu_msg_id := some "pmP" }

/-- Witness for C2: concrete permission record; `y` sends `"\r"` and deletes,
`n` sends `"\x1b"` and deletes, `maybe` leaves only a usage hint. -/
theorem permission_reply_dispatch_witness :
    (handleParentReply "y" "pmP" [] [("fP", pPerm)] "sock" [] "").eff =
      ⟨[TermAct.sendKeystroke "10" "\r" "sock"], ["fP"], [], ["✅ 已允许"]⟩ ∧
    (handleParentReply "n" "pmP" [] [("fP", pPerm)] "sock" [] "").eff =
      ⟨[TermAct.sendKeystroke "10" "\x1b" "sock"], ["fP"], [], ["❌ 已拒绝"]⟩ ∧
    (handleParentReply "maybe" "pmP" [] [("fP", pPerm)] "sock" [] "").eff =
      { noEffects with msgs := ["⚠️ 该请求是权限确认，请回复 y 或 n"] } :=
  ⟨(permission_reply_dispatch "y" "pmP" [] [("fP", pPerm)] "sock" [] "" "fP" pPerm
      (by decide) rfl (by decide) (by decide)).1 (Or.inl (by decide)),
   (permission_reply_dispatch "n" "pmP" [] [("fP", pPerm)] "sock" [] "" "fP" pPerm
      (by decide) rfl (by decide) (by decide)).2.1 (Or.inl (by decide)),
   (permission_reply_dispatch "maybe" "pmP" [] [("fP", pPerm)] "sock" [] "" "fP" pPerm
      (by decide) rfl (by decide) (by decide)).2.2 (by decide)⟩

/- ── Lemmas about `_find_pending_request`'s scan loop ───────────── -/

lemma findPendingAux_acc_isSome :
    ∀ (pid : String) (entries : List (String × Pending)) (a : String × Pending) (latest : Nat),
      (findPendingAux pid entries (some a) latest).isSome := by
  intro pid entries
  induction entries with
  | nil => intro a latest; rfl
  | cons hd tl ih =>
    intro a latest
    obtain ⟨fp, p⟩ := hd
    simp only [findPendingAux]
    split_ifs with h1 h2
    · rfl
    · exact ih _ _
    · exact ih _ _

lemma findPendingAux_parent_none (pid : String) (hpid : pid ≠ "") :
    ∀ (entries : List (String × Pending)) (acc : Option (String × Pending)) (latest : Nat),
      (∀ e ∈ entries, e.2.feishu_msg_id ≠ some pid) →
      findPendingAux pid entries acc latest = acc := by
  intro entries
  induction entries with
  | nil => intro acc latest _; rfl
  | cons hd tl ih =>
    intro acc latest h
    obtain ⟨fp, p⟩ := hd
    have h1 : ¬(pid ≠ "" ∧ p.feishu_msg_id = some pid) :=
      fun hc => (h (fp, p) (List.mem_cons_self _ _)) hc.2
    have h2 : ¬(pid = "" ∧ p.notified = true ∧ p.timestamp > latest) :=
      fun hc => hpid hc.1
    simp only [findPendingAux]
    rw [if_neg h1, if_neg h2]
    exact ih acc latest (fun e he => h e (List.mem_cons_of_mem _ he))

lemma findPendingAux_parent_sound (pid : String) (hpid : pid ≠ "") :
    ∀ (entries : List (String × Pending)) (acc : Option (String × Pending)) (latest : Nat)
      (e : String × Pending),
      findPendingAux pid entries acc latest = some e →
      (e ∈ entries ∧ e.2.feishu_msg_id = some pid) ∨ acc = some e := by
  intro entries
  induction entries with
  | nil => intro acc latest e h; exact Or.inr h
  | cons hd tl ih =>
    intro acc latest e h
    obtain ⟨fp, p⟩ := hd
    simp only [findPendingAux] at h
    by_cases h1 : pid ≠ "" ∧ p.feishu_msg_id = some pid
    · rw [if_pos h1] at h
      obtain rfl : (fp, p) = e := by injection h
      exact Or.inl ⟨List.mem_cons_self _ _, h1.2⟩
    · rw [if_neg h1] at h
      have h2 : ¬(pid = "" ∧ p.notified = true ∧ p.timestamp > latest) :=
        fun hc => hpid hc.1
      rw [if_neg h2] at h
      rcases ih acc latest e h with ⟨hm, hf⟩ | hacc
      · exact Or.inl ⟨List.mem_cons_of_mem _ hm, hf⟩
      · exact Or.inr hacc

lemma findPendingAux_empty_sound :
    ∀ (entries : List (String × Pending)) (acc : Option (String × Pending)) (latest : Nat),
      (∀ x, acc = some x → x.2.notified = true ∧ x.2.timestamp = latest) →
      ∀ e, findPendingAux "" entries acc latest = some e →
        (e ∈ entries ∨ acc = some e) ∧ e.2.notified = true ∧ latest ≤ e.2.timestamp ∧
        (∀ x ∈ entries, x.2.notified = true → x.2.timestamp ≤ e.2.timestamp) := by
  intro entries
  induction entries with
  | nil =>
    intro acc latest hacc e h
    obtain ⟨hn, ht⟩ := hacc e h
    exact ⟨Or.inr h, hn, Nat.le_of_eq ht.symm, fun x hx => absurd hx (List.not_mem_nil x)⟩
  | cons hd tl ih =>
    intro acc latest hacc e h
    obtain ⟨fp, p⟩ := hd
    simp only [findPendingAux] at h
    split_ifs at h with h1 h2
    · exact absurd rfl h1.1
    · obtain ⟨-, hn2, hlt2⟩ := h2
      have hacc2 : ∀ x : String × Pending, some (fp, p) = some x →
          x.2.notified = true ∧ x.2.timestamp = p.timestamp := by
        intro x hx
        injection hx with hx2
        subst hx2
        exact ⟨hn2, rfl⟩
      obtain ⟨hmem, hn, hge, hmax⟩ := ih (some (fp, p)) p.timestamp hacc2 e h
      refine ⟨?_, hn, Nat.le_trans (Nat.le_of_lt hlt2) hge, ?_⟩
      · rcases hmem with hm | hm
        · exact Or.inl (List.mem_cons_of_mem _ hm)
        · obtain rfl : (fp, p) = e := by injection hm
          exact Or.inl (List.mem_cons_self _ _)
      · intro x hx hxn
        rcases List.mem_cons.mp hx with rfl | hx2
        · exact hge
        · exact hmax x hx2 hxn
    · obtain ⟨hmem, hn, hge, hmax⟩ := ih acc latest hacc e h
      refine ⟨?_, hn, hge, ?_⟩
      · rcases hmem with hm | hm
        · exact Or.inl (List.mem_cons_of_mem _ hm)
        · exact Or.inr hm
      · intro x hx hxn
        rcases List.mem_cons.mp hx with hx1 | hx2
        · subst hx1
          have hle : p.timestamp ≤ latest := by
            by_contra hlt
            exact h2 ⟨by trivial, hxn, Nat.lt_of_not_le hlt⟩
          exact Nat.le_trans hle hge
        · exact hmax x hx2 hxn

lemma findPendingAux_empty_complete :
    ∀ (entries : List (String × Pending)) (acc : Option (String × Pending)) (latest : Nat)
      (x : String × Pending),
      x ∈ entries → x.2.notified = true → latest < x.2.timestamp →
      (findPendingAux "" entries acc latest).isSome := by
  intro entries
  induction entries with
  | nil => intro acc latest x hx; exact absurd hx (List.not_mem_nil x)
  | cons hd tl ih =>
    intro acc latest x hx hn hlt
    obtain ⟨fp, p⟩ := hd
    simp only [findPendingAux]
    split_ifs with h1 h2
    · rfl
    · exact findPendingAux_acc_isSome "" tl (fp, p) p.timestamp
    · rcases List.mem_cons.mp hx with rfl | hx2
      · exact absurd ⟨by trivial, hn, hlt⟩ h2
      · exact ih acc latest x hx2 hn hlt

/-- Claim C4 (amended): `_find_pending_request` with a parent id returns a stored
record whose notify-message id equals the parent id (the first in scan
order), or `none` when no record matches; with no parent id it returns a
notified record whose *stored creation timestamp* (the record's
`timestamp` field) is maximal among all notified records — recency is
measured by creation timestamp, not by notification time — and it returns
some record whenever a notified record with positive timestamp exists. -/
theorem find_pending_request_characterization :
    ∀ (parentId : String) (store : List (String × Pending)),
      (parentId ≠ "" →
        ((∀ e ∈ store, e.2.feishu_msg_id ≠ some parentId) →
          findPendingRequest parentId store = none) ∧
        (∀ e, findPendingRequest parentId store = some e →
          e ∈ store ∧ e.2.feishu_msg_id = some parentId)) ∧
      (parentId = "" →
        (∀ e, findPendingRequest parentId store = some e →
          e ∈ store ∧ e.2.notified = true ∧
          ∀ x ∈ store, x.2.notified = true → x.2.timestamp ≤ e.2.timestamp) ∧
        (∀ x ∈ store, x.2.notified = true → 0 < x.2.timestamp →
          (findPendingRequest parentId store).isSome)) := by
  intro parentId store
  constructor
  · intro hpid
    constructor
    · intro hnone
      exact findPendingAux_parent_none parentId hpid store none 0 hnone
    · intro e h
      rcases findPendingAux_parent_sound parentId hpid store none 0 e h with he | he
      · exact he
      · exact absurd he (by simp)
  · intro hpid
    subst hpid
    constructor
    · intro e h
      obtain ⟨hmem, hn, _, hmax⟩ :=
        findPendingAux_empty_sound store none 0 (by intro x hx; cases hx) e h
      rcases hmem with hm | hm
      · exact ⟨hm, hn, hmax⟩
      · cases hm
    · intro x hx hn hpos
      exact findPendingAux_empty_complete store none 0 x hx hn hpos

def pendA : Pending := { window_id := "wA", timestamp := 10 }

def pendB : Pending := { window_id := "wB", timestamp := 20 }

def pendAn : Pending :=
  { window_id := "wA", timestamp := 10, notified := true,
    feishu_msg_id := some "mA", reply_mode := some "permission" }

def pendBn : Pending :=
  { window_id := "wB", timestamp := 20, notified := true,
    feishu_msg_id := some "mB", reply_mode := some "permission" }

/-- Claim C4, counterexample: record A (created at 10) fails its first
notification send at time 30 and is notified at time 40; record B (created
at 20) is notified at time 30.  So A is the most-recently-notified record
(notification times 40 > 30), but `_find_pending_request("")` returns B,
because it compares stored creation timestamps (20 > 10), not notification
times.  Each `processPending` step below is the notify pass realizing
exactly those notification times. -/
theorem find_pending_fuzzy_not_by_notification_time :
    processPending pendA 30 5 1000 "" = some pendA ∧
    processPending pendB 30 5 1000 "mB" = some pendBn ∧
    processPending pendA 40 5 1000 "mA" = some pendAn ∧
    specMostRecentlyNotified [("fA", pendAn), ("fB", pendBn)]
      (fun fp => if fp = "fA" then 40 else 30) = some ("fA", pendAn) ∧
    findPendingRequest "" [("fA", pendAn), ("fB", pendBn)] = some ("fB", pendBn) ∧
    (("fB", pendBn) : String × Pending) ≠ ("fA", pendAn) := by
  refine ⟨by decide, by decide, by decide, by decide, by decide, by decide⟩

/-- Witness for C4 (amended) at the same concrete store: the fuzzy lookup
returns a notified record of maximal stored creation timestamp. -/
theorem find_pending_request_characterization_witness :
    ("fB", pendBn) ∈ ([("fA", pendAn), ("fB", pendBn)] : List (String × Pending)) ∧
    pendBn.notified = true ∧
    (∀ x ∈ ([("fA", pendAn), ("fB", pendBn)] : List (String × Pending)),
      x.2.notified = true → x.2.timestamp ≤ pendBn.timestamp) :=
  ((find_pending_request_characterization "" [("fA", pendAn), ("fB", pendBn)]).2 rfl).1
    ("fB", pendBn) (by decide)

/- ── C8: pending-command lifecycle ──────────────────────────────── -/

lemma lookupAssoc_removeAssoc {α : Type} :
    ∀ (m : List (String × α)) (k : String), lookupAssoc (removeAssoc m k) k = none := by
  intro m k
  induction m with
  | nil => rfl
  | cons hd tl ih =>
    by_cases h : hd.1 = k
    · simp only [removeAssoc, List.filter_cons] at ih ⊢
      simp [h, ih]
    · simp only [removeAssoc, List.filter_cons] at ih ⊢
      simp [lookupAssoc, List.find?, h, ih]

/-- Claim C8: for a buffered pending command keyed by its confirmation-message
id: a `y` reply removes the record and sends the buffered text plus a
submit keystroke to the target window (when the window is still registered
and a socket resolves); an `n` reply removes the record, sends nothing to
the terminal, and acknowledges the cancel; and the housekeeping sweep
deletes any record older than 300 seconds — so a record is deleted on
confirm, on cancel, or on staleness. -/
theorem pending_command_lifecycle :
    ∀ (parentId : String) (cmds : List (String × PendingCmd)) (pc : PendingCmd)
      (registry : List (String × TermInfo)) (detectedSocket : String) (info : TermInfo)
      (now : Nat),
      lookupAssoc cmds parentId = some pc →
      (lookupAssoc registry pc.window_id = some info →
        pyOr (info.kitty_socket.getD "") detectedSocket ≠ "" →
        (executePendingCommand "y" parentId cmds registry detectedSocket).1.keys =
          [TermAct.sendKeystroke pc.window_id pc.text
             (pyOr (info.kitty_socket.getD "") detectedSocket),
           TermAct.sendKeystroke pc.window_id "\r"
             (pyOr (info.kitty_socket.getD "") detectedSocket)] ∧
        lookupAssoc (executePendingCommand "y" parentId cmds registry detectedSocket).2
          parentId = none) ∧
      ((executePendingCommand "n" parentId cmds registry detectedSocket).1.keys = [] ∧
       (executePendingCommand "n" parentId cmds registry detectedSocket).1.msgs =
         ["❌ 已取消发送"] ∧
       lookupAssoc (executePendingCommand "n" parentId cmds registry detectedSocket).2
         parentId = none) ∧
      (∀ e ∈ cmds, now - e.2.timestamp > 300 → e ∉ cleanupPendingCommands now cmds) := by
  intro parentId cmds pc registry detectedSocket info now hl
  refine ⟨?_, ?_, ?_⟩
  · intro hreg hsock
    simp [executePendingCommand, sendCommandToTerminal, hl, hreg, hsock,
      lookupAssoc_removeAssoc]
  · simp [executePendingCommand, hl, lookupAssoc_removeAssoc, noEffects]
  · intro e he hexp
    simp only [cleanupPendingCommands, List.mem_filter]
    intro hc
    exact absurd hc.2 (by simp; omega)

def cmdC : PendingCmd := ⟨"11", "do it", 1000⟩

def infoC : TermInfo := { kitty_socket := some "sockC" }

/-- Witness for C8 at a concrete pending command: `y` sends the buffered
text plus submit, `n` only acknowledges the cancel, and a 500-second-old
record is swept. -/
theorem pending_command_lifecycle_witness :
    (executePendingCommand "y" "pmC" [("pmC", cmdC)] [("11", infoC)] "").1.keys =
      [TermAct.sendKeystroke "11" "do it" "sockC",
       TermAct.sendKeystroke "11" "\r" "sockC"] ∧
    (executePendingCommand "n" "pmC" [("pmC", cmdC)] [("11", infoC)] "").1.msgs =
      ["❌ 已取消发送"] ∧
    ("pmC", cmdC) ∉ cleanupPendingCommands 1500 [("pmC", cmdC)] := by
  have h := pending_command_lifecycle "pmC" [("pmC", cmdC)] cmdC [("11", infoC)] ""
    infoC 1500 rfl
  exact ⟨(h.1 rfl (by decide)).1, h.2.1.2.1, h.2.2 ("pmC", cmdC) (by decide) (by decide)⟩
